import Mathlib

/-!
Verification of the dataset-generation pipeline of the Movie-Analytics-Dashboard
repository (`src/services/geminiService.ts`, `src/components/charts/geminiService.ts`).

The TypeScript code is shallowly embedded: JS numbers for years become `Int`
(`Nat` for the loop counters of the period partitioner, which only range over
calendar years), fractional ratings/budgets become `ℚ`, strings become `String`
or `List Char` where character indexing matters, exceptions become `Option` /
`Except`, and the external network/JSON-decode effects become explicit
function parameters.
-/

/-- The `Movie` interface of `src/types.ts`.  `genre` and `language` are plain
strings there (the enum types elaborate to strings in TS); numeric fields are
JS numbers, embedded as `Int` (integral fields) and `ℚ` (fractional fields). -/
structure Movie where
  id : String
  title : String
  genre : String
  language : String
  year : Int
  imdbRating : ℚ
  rottenTomatoesRating : Int
  budget : ℚ
  revenue : ℚ
deriving DecidableEq

/-! ## Period Partitioner

`src/services/geminiService.ts` lines 92–99:

```
const periods: [number, number][] = [];
for (let i = startYear; i <= endYear; i += step) {
  periods.push([i, Math.min(i + step - 1, endYear)]);
}
```

The loop is embedded with explicit fuel: each iteration advances `i` by
`step ≥ 1`, so `endYear + 1 - startYear` iterations always suffice. -/

/-- One iteration of the partition loop; `fuel` bounds the number of
iterations and is always sufficient when the loop is entered via
`mkPeriods`. -/
def mkPeriodsGo (endYear step : Nat) : Nat → Nat → List (Nat × Nat)
  | 0, _ => []
  | fuel + 1, i =>
    if i ≤ endYear then
      (i, min (i + step - 1) endYear) :: mkPeriodsGo endYear step fuel (i + step)
    else []

/-- The period partitioner: `for (let i = startYear; i <= endYear; i += step)
periods.push([i, Math.min(i + step - 1, endYear)])`.  For `step = 0` the JS
loop would not terminate; the embedding returns `[]` in that (unreachable,
`step` is the constant 3 in the source) case. -/
def mkPeriods (startYear endYear step : Nat) : List (Nat × Nat) :=
  if 0 < step then mkPeriodsGo endYear step (endYear + 1 - startYear) startYear
  else []

theorem mkPeriodsGo_eq_nil (e step fuel i : Nat) (h : e < i) :
    mkPeriodsGo e step fuel i = [] := by
  cases fuel with
  | zero => rfl
  | succ fuel => simp [mkPeriodsGo, Nat.not_le.mpr h]

theorem mkPeriodsGo_bounds (e step : Nat) (hstep : 0 < step) :
    ∀ fuel i, ∀ p ∈ mkPeriodsGo e step fuel i, i ≤ p.1 ∧ p.1 ≤ p.2 ∧ p.2 ≤ e := by
  intro fuel
  induction fuel with
  | zero => intro i p hp; simp [mkPeriodsGo] at hp
  | succ fuel ih =>
    intro i p hp
    by_cases hi : i ≤ e
    · simp only [mkPeriodsGo, if_pos hi, List.mem_cons] at hp
      rcases hp with rfl | hp
      · refine ⟨Nat.le_refl _, ?_, ?_⟩
        · show i ≤ min (i + step - 1) e
          omega
        · show min (i + step - 1) e ≤ e
          omega
      · have h := ih (i + step) p hp
        omega
    · rw [mkPeriodsGo_eq_nil e step _ i (by omega)] at hp
      simp at hp

theorem mkPeriodsGo_cover (e step : Nat) (hstep : 0 < step) :
    ∀ fuel i, e + 1 - i ≤ fuel →
      ∀ y, (i ≤ y ∧ y ≤ e) ↔ ∃ p ∈ mkPeriodsGo e step fuel i, p.1 ≤ y ∧ y ≤ p.2 := by
  intro fuel
  induction fuel with
  | zero =>
    intro i hf y
    constructor
    · intro hy; omega
    · rintro ⟨p, hp, -⟩
      simp [mkPeriodsGo] at hp
  | succ fuel ih =>
    intro i hf y
    by_cases hi : i ≤ e
    · have ihy := ih (i + step) (by omega) y
      simp only [mkPeriodsGo, if_pos hi, List.mem_cons]
      constructor
      · intro hy
        by_cases hylo : y ≤ min (i + step - 1) e
        · exact ⟨(i, min (i + step - 1) e), Or.inl rfl, by omega, by omega⟩
        · obtain ⟨p, hp, h1, h2⟩ := ihy.mp (by omega)
          exact ⟨p, Or.inr hp, h1, h2⟩
      · rintro ⟨p, rfl | hp, h1, h2⟩
        · simp only [] at h1 h2
          omega
        · have h := ihy.mpr ⟨p, hp, h1, h2⟩
          omega
    · rw [mkPeriodsGo_eq_nil e step _ i (by omega)]
      constructor
      · intro hy; omega
      · rintro ⟨p, hp, -⟩
        simp at hp

theorem mkPeriodsGo_pairwise (e step : Nat) (hstep : 0 < step) :
    ∀ fuel i, List.Pairwise (fun p q => p.2 < q.1) (mkPeriodsGo e step fuel i) := by
  intro fuel
  induction fuel with
  | zero => intro i; simp [mkPeriodsGo]
  | succ fuel ih =>
    intro i
    by_cases hi : i ≤ e
    · simp only [mkPeriodsGo, if_pos hi]
      refine List.Pairwise.cons ?_ (ih (i + step))
      intro q hq
      have h := mkPeriodsGo_bounds e step hstep fuel (i + step) q hq
      show min (i + step - 1) e < q.1
      omega
    · simp [mkPeriodsGo, hi]

theorem mkPeriodsGo_chain (e step : Nat) (hstep : 0 < step) :
    ∀ fuel i, e + 1 - i ≤ fuel →
      List.Chain' (fun p q => q.1 = p.2 + 1) (mkPeriodsGo e step fuel i) := by
  intro fuel
  induction fuel with
  | zero => intro i _; simp [mkPeriodsGo]
  | succ fuel ih =>
    intro i hf
    by_cases hi : i ≤ e
    · simp only [mkPeriodsGo, if_pos hi]
      rw [List.chain'_cons']
      refine ⟨?_, ih (i + step) (by omega)⟩
      intro q hq
      by_cases hnext : i + step ≤ e
      · cases fuel with
        | zero => omega
        | succ fuel' =>
          simp only [mkPeriodsGo, if_pos hnext, List.head?_cons, Option.mem_def,
            Option.some.injEq] at hq
          subst hq
          show i + step = min (i + step - 1) e + 1
          omega
      · rw [mkPeriodsGo_eq_nil e step fuel (i + step) (by omega)] at hq
        simp at hq
    · simp [mkPeriodsGo, hi]

theorem mkPeriodsGo_last (e step : Nat) (hstep : 0 < step) :
    ∀ fuel i, i ≤ e → e + 1 - i ≤ fuel →
      ∃ p, (mkPeriodsGo e step fuel i).getLast? = some p ∧ p.2 = e := by
  intro fuel
  induction fuel with
  | zero => intro i hi hf; omega
  | succ fuel ih =>
    intro i hi hf
    by_cases hnext : i + step ≤ e
    · cases fuel with
      | zero => omega
      | succ fuel' =>
        obtain ⟨p, hp, hpe⟩ := ih (i + step) hnext (by omega)
        refine ⟨p, ?_, hpe⟩
        simp only [mkPeriodsGo, if_pos hi, if_pos hnext] at hp ⊢
        rw [List.getLast?_cons_cons]
        exact hp
    · refine ⟨(i, min (i + step - 1) e), ?_, by omega⟩
      simp only [mkPeriodsGo, if_pos hi]
      rw [mkPeriodsGo_eq_nil e step fuel (i + step) (by omega)]
      rfl

/-- C2: for every overall inclusive year range and positive step, the emitted
sub-ranges cover exactly the years of the overall range (union equals the
range, hence no gaps), are pairwise disjoint, are contiguous (each sub-range
starts right after the previous one ends), each stays within the overall
range, and the last sub-range's upper bound equals (is clamped to) the overall
end year. -/
theorem mkPeriods_partition (startYear endYear step : Nat) (hstep : 0 < step)
    (hse : startYear ≤ endYear) :
    (∀ y, (startYear ≤ y ∧ y ≤ endYear) ↔
      ∃ p ∈ mkPeriods startYear endYear step, p.1 ≤ y ∧ y ≤ p.2) ∧
    List.Pairwise (fun p q => p.2 < q.1) (mkPeriods startYear endYear step) ∧
    List.Chain' (fun p q => q.1 = p.2 + 1) (mkPeriods startYear endYear step) ∧
    (∀ p ∈ mkPeriods startYear endYear step, startYear ≤ p.1 ∧ p.1 ≤ p.2 ∧ p.2 ≤ endYear) ∧
    (∃ p, (mkPeriods startYear endYear step).getLast? = some p ∧ p.2 = endYear) := by
  unfold mkPeriods
  rw [if_pos hstep]
  refine ⟨?_, ?_, ?_, ?_, ?_⟩
  · exact mkPeriodsGo_cover endYear step hstep _ startYear (Nat.le_refl _)
  · exact mkPeriodsGo_pairwise endYear step hstep _ startYear
  · exact mkPeriodsGo_chain endYear step hstep _ startYear (Nat.le_refl _)
  · exact mkPeriodsGo_bounds endYear step hstep _ startYear
  · exact mkPeriodsGo_last endYear step hstep _ startYear hse (Nat.le_refl _)

/-- Witness for C2 at the source's concrete configuration
(1980–2025, step 3). -/
theorem mkPeriods_partition_witness :
    0 < 3 ∧ 1980 ≤ 2025 ∧
    ((∀ y, (1980 ≤ y ∧ y ≤ 2025) ↔
      ∃ p ∈ mkPeriods 1980 2025 3, p.1 ≤ y ∧ y ≤ p.2) ∧
    List.Pairwise (fun p q => p.2 < q.1) (mkPeriods 1980 2025 3) ∧
    List.Chain' (fun p q => q.1 = p.2 + 1) (mkPeriods 1980 2025 3) ∧
    (∀ p ∈ mkPeriods 1980 2025 3, 1980 ≤ p.1 ∧ p.1 ≤ p.2 ∧ p.2 ≤ 2025) ∧
    (∃ p, (mkPeriods 1980 2025 3).getLast? = some p ∧ p.2 = 2025)) :=
  ⟨by decide, by decide, mkPeriods_partition 1980 2025 3 (by decide) (by decide)⟩

/-! ## Batch Fetcher

`src/services/geminiService.ts` lines 72–87.  The raw response text is a
`List Char`; the JSON decoder and the network are external effects, passed in
as explicit parameters (`decode` returns `none` when `JSON.parse` or the cast
would throw; the response is an `Except` that is `error` when the request
itself throws). -/

/-- `String.prototype.indexOf`: index of the first occurrence of `c`, `none`
for JS's `-1`. -/
def firstIdxOf (c : Char) : List Char → Option Nat
  | [] => none
  | a :: t => if a = c then some 0 else (firstIdxOf c t).map (· + 1)

/-- `String.prototype.lastIndexOf`: index of the last occurrence of `c`,
`none` for JS's `-1`. -/
def lastIdxOf (c : Char) : List Char → Option Nat
  | [] => none
  | a :: t =>
    match lastIdxOf c t with
    | some k => some (k + 1)
    | none => if a = c then some 0 else none

/-- Lines 73–79: slice from the first `[` to the last `]` inclusive when both
exist in that order, otherwise keep the raw text unchanged. -/
def extractJson (raw : List Char) : List Char :=
  match firstIdxOf '[' raw, lastIdxOf ']' raw with
  | some startIdx, some endIdx =>
    if startIdx < endIdx then (raw.drop startIdx).take (endIdx + 1 - startIdx) else raw
  | some _, none => raw
  | none, _ => raw

/-- Lines 81–87: decode the cleaned text, keep the records whose `year` is in
the requested sub-range; a decode failure is caught and yields `[]`. -/
def processBatchResponse (decode : List Char → Option (List Movie))
    (startYear endYear : Int) (rawText : List Char) : List Movie :=
  match decode (extractJson rawText) with
  | some data => data.filter fun m => decide (startYear ≤ m.year ∧ m.year ≤ endYear)
  | none => []

/-- `fetchMoviesForPeriod`, lines 30–87: a failed request (the `catch`) yields
`[]`; a successful response is parsed, filtered and returned. -/
def fetchMoviesForPeriod (decode : List Char → Option (List Movie))
    (startYear endYear : Int) (response : Except String (List Char)) : List Movie :=
  match response with
  | Except.ok rawText => processBatchResponse decode startYear endYear rawText
  | Except.error _ => []

theorem firstIdxOf_spec (c : Char) :
    ∀ (l : List Char) (i : Nat), firstIdxOf c l = some i →
      l[i]? = some c ∧ ∀ k, k < i → l[k]? ≠ some c := by
  intro l
  induction l with
  | nil => intro i h; simp [firstIdxOf] at h
  | cons a t ih =>
    intro i h
    by_cases hac : a = c
    · simp only [firstIdxOf, if_pos hac, Option.some.injEq] at h
      subst h
      refine ⟨by simp [hac], ?_⟩
      intro k hk
      omega
    · simp only [firstIdxOf, if_neg hac, Option.map_eq_some'] at h
      obtain ⟨i', hi', rfl⟩ := h
      obtain ⟨h1, h2⟩ := ih i' hi'
      refine ⟨?_, ?_⟩
      · rw [List.getElem?_cons_succ]; exact h1
      · intro k hk
        cases k with
        | zero => simp [hac]
        | succ k =>
          rw [List.getElem?_cons_succ]
          exact h2 k (by omega)

theorem firstIdxOf_isSome (c : Char) :
    ∀ (l : List Char) (n : Nat), l[n]? = some c → (firstIdxOf c l).isSome := by
  intro l
  induction l with
  | nil => intro n h; simp at h
  | cons a t ih =>
    intro n h
    by_cases hac : a = c
    · simp [firstIdxOf, hac]
    · cases n with
      | zero =>
        rw [List.getElem?_cons_zero] at h
        exact absurd (Option.some.inj h) hac
      | succ n =>
        rw [List.getElem?_cons_succ] at h
        have hs := ih n h
        simp only [firstIdxOf, if_neg hac]
        cases hfi : firstIdxOf c t with
        | none => rw [hfi] at hs; simp at hs
        | some k => simp

theorem lastIdxOf_isSome (c : Char) :
    ∀ (l : List Char) (n : Nat), l[n]? = some c → (lastIdxOf c l).isSome := by
  intro l
  induction l with
  | nil => intro n h; simp at h
  | cons a t ih =>
    intro n h
    simp only [lastIdxOf]
    cases htail : lastIdxOf c t with
    | some k => simp
    | none =>
      cases n with
      | zero =>
        rw [List.getElem?_cons_zero] at h
        simp [Option.some.inj h]
      | succ n =>
        rw [List.getElem?_cons_succ] at h
        have hs := ih n h
        rw [htail] at hs
        simp at hs

theorem lastIdxOf_spec (c : Char) :
    ∀ (l : List Char) (j : Nat), lastIdxOf c l = some j →
      l[j]? = some c ∧ ∀ k, j < k → l[k]? ≠ some c := by
  intro l
  induction l with
  | nil => intro j h; simp [lastIdxOf] at h
  | cons a t ih =>
    intro j h
    simp only [lastIdxOf] at h
    cases htail : lastIdxOf c t with
    | some k =>
      rw [htail] at h
      simp only [Option.some.injEq] at h
      subst h
      obtain ⟨h1, h2⟩ := ih k htail
      refine ⟨?_, ?_⟩
      · rw [List.getElem?_cons_succ]; exact h1
      · intro m hm
        cases m with
        | zero => omega
        | succ m =>
          rw [List.getElem?_cons_succ]
          exact h2 m (by omega)
    | none =>
      rw [htail] at h
      by_cases hac : a = c
      · rw [if_pos hac] at h
        simp only [Option.some.injEq] at h
        subst h
        refine ⟨by simp [hac], ?_⟩
        intro m hm
        cases m with
        | zero => omega
        | succ m =>
          rw [List.getElem?_cons_succ]
          intro hcon
          have hsc := lastIdxOf_isSome c t m hcon
          rw [htail] at hsc
          simp at hsc
      · rw [if_neg hac] at h
        simp at h

/-- C7: if the raw response text contains a `[` that precedes a `]`, the
extraction step locates the first `[` (index `i`) and the last `]` (index
`j`) and slices the substring from `i` to `j` inclusive — tolerating leading
and trailing commentary — and that substring starts with `[` and ends with
`]`; moreover, whenever decoding of the extracted text fails, the batch
yields the empty list. -/
theorem extractJson_first_last (raw : List Char)
    (h : ∃ p q : Nat, p < q ∧ raw[p]? = some '[' ∧ raw[q]? = some ']') :
    (∃ i j : Nat, firstIdxOf '[' raw = some i ∧ lastIdxOf ']' raw = some j ∧ i < j ∧
      raw[i]? = some '[' ∧ (∀ k, k < i → raw[k]? ≠ some '[') ∧
      raw[j]? = some ']' ∧ (∀ k, j < k → raw[k]? ≠ some ']') ∧
      extractJson raw = (raw.drop i).take (j + 1 - i) ∧
      (extractJson raw).head? = some '[' ∧
      (extractJson raw).getLast? = some ']') ∧
    (∀ (decode : List Char → Option (List Movie)) (s e : Int) (txt : List Char),
      decode (extractJson txt) = none → processBatchResponse decode s e txt = []) := by
  constructor
  · obtain ⟨p, q, hpq, hp, hq⟩ := h
    obtain ⟨i, hi⟩ := Option.isSome_iff_exists.mp (firstIdxOf_isSome '[' raw p hp)
    obtain ⟨j, hj⟩ := Option.isSome_iff_exists.mp (lastIdxOf_isSome ']' raw q hq)
    obtain ⟨hi1, hi2⟩ := firstIdxOf_spec '[' raw i hi
    obtain ⟨hj1, hj2⟩ := lastIdxOf_spec ']' raw j hj
    have hip : i ≤ p := by
      by_contra hc
      exact hi2 p (by omega) hp
    have hjq : q ≤ j := by
      by_contra hc
      exact hj2 q (by omega) hq
    have hij : i < j := by omega
    have hjlen : j < raw.length := by
      obtain ⟨hh, -⟩ := List.getElem?_eq_some_iff.mp hj1
      exact hh
    have hext : extractJson raw = (raw.drop i).take (j + 1 - i) := by
      unfold extractJson
      rw [hi, hj]
      simp [hij]
    refine ⟨i, j, hi, hj, hij, hi1, hi2, hj1, hj2, hext, ?_, ?_⟩
    · rw [hext, List.head?_eq_getElem?, List.getElem?_take, if_pos (by omega),
        List.getElem?_drop]
      simpa using hi1
    · have hlen : ((raw.drop i).take (j + 1 - i)).length = j + 1 - i := by
        rw [List.length_take, List.length_drop]
        exact inf_eq_left.mpr (by omega)
      rw [hext, List.getLast?_eq_getElem?, hlen, List.getElem?_take, if_pos (by omega),
        List.getElem?_drop]
      have hidx : i + (j + 1 - i - 1) = j := by omega
      rw [hidx]
      exact hj1
  · intro decode s e txt hdec
    unfold processBatchResponse
    rw [hdec]

/-- Witness for C7 on the spec's scenario: commentary around a bracketed
payload. -/
theorem extractJson_first_last_witness :
    (∃ p q : Nat, p < q ∧ ("Here is the data: [7] Thanks!".toList)[p]? = some '[' ∧
      ("Here is the data: [7] Thanks!".toList)[q]? = some ']') ∧
    ((∃ i j : Nat, firstIdxOf '[' ("Here is the data: [7] Thanks!".toList) = some i ∧
      lastIdxOf ']' ("Here is the data: [7] Thanks!".toList) = some j ∧ i < j ∧
      ("Here is the data: [7] Thanks!".toList)[i]? = some '[' ∧
      (∀ k, k < i → ("Here is the data: [7] Thanks!".toList)[k]? ≠ some '[') ∧
      ("Here is the data: [7] Thanks!".toList)[j]? = some ']' ∧
      (∀ k, j < k → ("Here is the data: [7] Thanks!".toList)[k]? ≠ some ']') ∧
      extractJson ("Here is the data: [7] Thanks!".toList) =
        (("Here is the data: [7] Thanks!".toList).drop i).take (j + 1 - i) ∧
      (extractJson ("Here is the data: [7] Thanks!".toList)).head? = some '[' ∧
      (extractJson ("Here is the data: [7] Thanks!".toList)).getLast? = some ']') ∧
    (∀ (decode : List Char → Option (List Movie)) (s e : Int) (txt : List Char),
      decode (extractJson txt) = none → processBatchResponse decode s e txt = [])) :=
  ⟨⟨18, 20, by decide, by decide, by decide⟩,
   extractJson_first_last ("Here is the data: [7] Thanks!".toList)
     ⟨18, 20, by decide, by decide, by decide⟩⟩

/-- C5: a failing batch — request error or unparseable/ill-typed response —
returns the empty list instead of raising, and the records of every other
batch still appear in the merged (flattened) result. -/
theorem fetch_failure_isolated (decode : List Char → Option (List Movie)) (s e : Int)
    (resp : Except String (List Char))
    (hfail : (∃ err, resp = Except.error err) ∨
             (∃ raw, resp = Except.ok raw ∧ decode (extractJson raw) = none)) :
    fetchMoviesForPeriod decode s e resp = [] ∧
    ∀ (pre post : List (List Movie)) (m : Movie),
      (∃ b ∈ pre ++ post, m ∈ b) →
      m ∈ (pre ++ fetchMoviesForPeriod decode s e resp :: post).flatten := by
  have hempty : fetchMoviesForPeriod decode s e resp = [] := by
    rcases hfail with ⟨err, rfl⟩ | ⟨raw, rfl, hdec⟩
    · rfl
    · show processBatchResponse decode s e raw = []
      unfold processBatchResponse
      rw [hdec]
  refine ⟨hempty, ?_⟩
  intro pre post m hm
  obtain ⟨b, hb, hmb⟩ := hm
  rw [List.mem_flatten]
  refine ⟨b, ?_, hmb⟩
  rcases List.mem_append.mp hb with hbp | hbp
  · exact List.mem_append_left _ hbp
  · exact List.mem_append_right _ (List.mem_cons_of_mem _ hbp)

/-- Witness for C5: a network-error batch. -/
theorem fetch_failure_isolated_witness :
    ((∃ err, (Except.error "network error" : Except String (List Char)) = Except.error err) ∨
     (∃ raw, (Except.error "network error" : Except String (List Char)) = Except.ok raw ∧
       (fun _ : List Char => (none : Option (List Movie))) (extractJson raw) = none)) ∧
    (fetchMoviesForPeriod (fun _ => none) 1990 1999 (Except.error "network error") = [] ∧
     ∀ (pre post : List (List Movie)) (m : Movie),
       (∃ b ∈ pre ++ post, m ∈ b) →
       m ∈ (pre ++ fetchMoviesForPeriod (fun _ => none) 1990 1999
         (Except.error "network error") :: post).flatten) :=
  ⟨Or.inl ⟨"network error", rfl⟩,
   fetch_failure_isolated (fun _ => none) 1990 1999 (Except.error "network error")
     (Or.inl ⟨"network error", rfl⟩)⟩

/-- C6: when the response decodes, the batch output is exactly the decoded
records whose `year` lies in the requested sub-range: every out-of-range
record is dropped and every in-range record is kept. -/
theorem batch_range_compliance (decode : List Char → Option (List Movie))
    (s e : Int) (raw : List Char) (data : List Movie)
    (hdec : decode (extractJson raw) = some data) :
    processBatchResponse decode s e raw =
      data.filter (fun m => decide (s ≤ m.year ∧ m.year ≤ e)) ∧
    ∀ m, m ∈ processBatchResponse decode s e raw ↔ m ∈ data ∧ s ≤ m.year ∧ m.year ≤ e := by
  have heq : processBatchResponse decode s e raw =
      data.filter (fun m => decide (s ≤ m.year ∧ m.year ≤ e)) := by
    unfold processBatchResponse
    rw [hdec]
  refine ⟨heq, ?_⟩
  intro m
  rw [heq, List.mem_filter]
  simp

/-- A sample record with `year` inside 1990–1999, used in witnesses. -/
def sampleInRange : Movie :=
  { id := "0", title := "A", genre := "Drama", language := "English", year := 1995,
    imdbRating := 8, rottenTomatoesRating := 90, budget := 1, revenue := 2 }

/-- A sample record with `year` outside 1990–1999, used in witnesses. -/
def sampleOutOfRange : Movie :=
  { id := "0", title := "B", genre := "Action", language := "Hindi", year := 2005,
    imdbRating := 7, rottenTomatoesRating := 80, budget := 3, revenue := 4 }

/-- Witness for C6: a decoded batch containing one in-range and one
out-of-range record. -/
theorem batch_range_compliance_witness :
    (fun _ : List Char => some [sampleInRange, sampleOutOfRange])
        (extractJson ("[]".toList)) = some [sampleInRange, sampleOutOfRange] ∧
    (processBatchResponse (fun _ => some [sampleInRange, sampleOutOfRange]) 1990 1999
        ("[]".toList) =
      [sampleInRange, sampleOutOfRange].filter
        (fun m => decide ((1990 : Int) ≤ m.year ∧ m.year ≤ (1999 : Int))) ∧
     ∀ m, m ∈ processBatchResponse (fun _ => some [sampleInRange, sampleOutOfRange]) 1990 1999
        ("[]".toList) ↔
       m ∈ [sampleInRange, sampleOutOfRange] ∧ (1990 : Int) ≤ m.year ∧ m.year ≤ (1999 : Int)) :=
  ⟨rfl, batch_range_compliance _ 1990 1999 _ _ rfl⟩

/-! ## Merge, deduplication and re-indexing

`src/services/geminiService.ts` lines 111–126 (title-only key) and
`src/components/charts/geminiService.ts` lines 419–434 (title-and-year key).
The JS `Map` is embedded as an insertion-ordered association list; the merged
raw array may contain `null` entries (`none`) and records with an empty
(falsy) `title`, which the `forEach` guard `if (movie && movie.title)`
skips. -/

/-- Dedup key of the `src/services` variant: `movie.title.toLowerCase().trim()`. -/
def dedupKeyTitle (m : Movie) : String := m.title.toLower.trim

/-- Dedup key of the bounded-wave charts variant:
`movie.title.toLowerCase().trim() + "|" + movie.year`. -/
def dedupKeyTitleYear (m : Movie) : String :=
  m.title.toLower.trim ++ "|" ++ toString m.year

/-- One step of the `rawMovies.forEach` loop: skip `null` and falsy-title
entries; otherwise insert under the key unless the key is already present
(first record wins). -/
def dedupStep (keyOf : Movie → String) (acc : List (String × Movie)) :
    Option Movie → List (String × Movie)
  | none => acc
  | some movie =>
    if movie.title = "" then acc
    else if (acc.lookup (keyOf movie)).isSome then acc
    else acc ++ [(keyOf movie, movie)]

/-- The `uniqueMap` after the `forEach` loop. -/
def mergeDedup (keyOf : Movie → String) (raw : List (Option Movie)) :
    List (String × Movie) :=
  raw.foldl (dedupStep keyOf) []

/-- The entries admitted by the `forEach` guard `if (movie && movie.title)`. -/
def validMovies (raw : List (Option Movie)) : List Movie :=
  raw.filterMap fun om =>
    match om with
    | some m => if m.title = "" then none else some m
    | none => none

/-- Re-indexing, lines 123–126:
`.map((movie, index) => ({ ...movie, id: (index + 1).toString() }))`. -/
def reindex (movies : List Movie) : List Movie :=
  movies.mapIdx fun index movie => { movie with id := toString (index + 1) }

/-- Merge + dedup + re-index phase of the orchestrator. -/
def finalizeDataset (keyOf : Movie → String) (raw : List (Option Movie)) : List Movie :=
  reindex ((mergeDedup keyOf raw).map Prod.snd)

theorem validMovies_nil : validMovies [] = [] := rfl

theorem validMovies_cons_none (raw : List (Option Movie)) :
    validMovies (none :: raw) = validMovies raw := by
  simp [validMovies, List.filterMap_cons]

theorem validMovies_cons_some_empty (m : Movie) (raw : List (Option Movie))
    (h : m.title = "") : validMovies (some m :: raw) = validMovies raw := by
  simp [validMovies, List.filterMap_cons, h]

theorem validMovies_cons_some (m : Movie) (raw : List (Option Movie))
    (h : ¬m.title = "") : validMovies (some m :: raw) = m :: validMovies raw := by
  simp [validMovies, List.filterMap_cons, h]

theorem validMovies_title (raw : List (Option Movie)) :
    ∀ m ∈ validMovies raw, m.title ≠ "" := by
  intro m hm
  rw [validMovies, List.mem_filterMap] at hm
  obtain ⟨om, hom, hf⟩ := hm
  cases om with
  | none => simp at hf
  | some m' =>
    by_cases ht : m'.title = ""
    · simp [ht] at hf
    · simp [ht] at hf
      subst hf
      exact ht

theorem lookup_append (k : String) :
    ∀ (l₁ l₂ : List (String × Movie)),
      (l₁ ++ l₂).lookup k =
        match l₁.lookup k with
        | some v => some v
        | none => l₂.lookup k := by
  intro l₁
  induction l₁ with
  | nil => intro l₂; rfl
  | cons a t ih =>
    intro l₂
    rcases a with ⟨ka, va⟩
    by_cases hk : k == ka
    · simp [List.lookup, hk]
    · simp only [List.cons_append, List.lookup, hk]
      exact ih l₂

theorem lookup_eq_none_iff (k : String) :
    ∀ (l : List (String × Movie)), l.lookup k = none ↔ k ∉ l.map Prod.fst := by
  intro l
  induction l with
  | nil => simp [List.lookup]
  | cons a t ih =>
    rcases a with ⟨ka, va⟩
    by_cases hk : k == ka
    · have hke : k = ka := by simpa using hk
      simp [List.lookup, hk, hke]
    · have hke : k ≠ ka := by simpa using hk
      simp [List.lookup, hk, ih, hke]

theorem lookup_of_mem_nodup (k : String) (v : Movie) :
    ∀ (l : List (String × Movie)), (l.map Prod.fst).Nodup → (k, v) ∈ l →
      l.lookup k = some v := by
  intro l
  induction l with
  | nil => intro _ h; simp at h
  | cons a t ih =>
    rcases a with ⟨ka, va⟩
    intro hnd hm
    simp only [List.map_cons, List.nodup_cons] at hnd
    rcases List.mem_cons.mp hm with heq | hm'
    · cases heq
      simp [List.lookup]
    · have hkka : k ≠ ka := by
        intro hcon
        subst hcon
        exact hnd.1 (List.mem_map_of_mem Prod.fst hm')
      have hbeq : (k == ka) = false := beq_eq_false_iff_ne.mpr hkka
      simp only [List.lookup, hbeq]
      exact ih hnd.2 hm'

theorem mergeDedup_invariant (keyOf : Movie → String) :
    ∀ (raw : List (Option Movie)) (acc : List (String × Movie)),
      (acc.map Prod.fst).Nodup →
      ((raw.foldl (dedupStep keyOf) acc).map Prod.fst).Nodup ∧
      (∀ k, (raw.foldl (dedupStep keyOf) acc).lookup k =
        match acc.lookup k with
        | some v => some v
        | none => (validMovies raw).find? (fun m => keyOf m == k)) ∧
      (∀ p ∈ raw.foldl (dedupStep keyOf) acc,
        p ∈ acc ∨ (keyOf p.2 = p.1 ∧ p.2 ∈ validMovies raw)) := by
  intro raw
  induction raw with
  | nil =>
    intro acc hnd
    refine ⟨hnd, ?_, ?_⟩
    · intro k
      rw [validMovies_nil]
      simp only [List.foldl_nil]
      cases List.lookup k acc <;> rfl
    · intro p hp
      simp only [List.foldl_nil] at hp
      exact Or.inl hp
  | cons om rest ih =>
    intro acc hnd
    cases om with
    | none =>
      obtain ⟨h1, h2, h3⟩ := ih acc hnd
      rw [List.foldl_cons]
      have hstep : dedupStep keyOf acc none = acc := rfl
      rw [hstep]
      refine ⟨h1, ?_, ?_⟩
      · intro k
        rw [validMovies_cons_none]
        exact h2 k
      · intro p hp
        rcases h3 p hp with hpa | ⟨hk, hv⟩
        · exact Or.inl hpa
        · exact Or.inr ⟨hk, by rw [validMovies_cons_none]; exact hv⟩
    | some m =>
      by_cases ht : m.title = ""
      · obtain ⟨h1, h2, h3⟩ := ih acc hnd
        rw [List.foldl_cons]
        have hstep : dedupStep keyOf acc (some m) = acc := by
          simp [dedupStep, ht]
        rw [hstep]
        refine ⟨h1, ?_, ?_⟩
        · intro k
          rw [validMovies_cons_some_empty m rest ht]
          exact h2 k
        · intro p hp
          rcases h3 p hp with hpa | ⟨hk, hv⟩
          · exact Or.inl hpa
          · exact Or.inr ⟨hk, by rw [validMovies_cons_some_empty m rest ht]; exact hv⟩
      · by_cases hl : (acc.lookup (keyOf m)).isSome
        · obtain ⟨h1, h2, h3⟩ := ih acc hnd
          rw [List.foldl_cons]
          have hstep : dedupStep keyOf acc (some m) = acc := by
            simp [dedupStep, ht, hl]
          rw [hstep]
          refine ⟨h1, ?_, ?_⟩
          · intro k
            rw [validMovies_cons_some m rest ht, h2 k]
            cases hak : acc.lookup k with
            | some v => rfl
            | none =>
              by_cases hkm : keyOf m = k
              · subst hkm
                rw [hak] at hl
                simp at hl
              · have hb : (keyOf m == k) = false := beq_eq_false_iff_ne.mpr hkm
                simp [List.find?, hb]
          · intro p hp
            rcases h3 p hp with hpa | ⟨hk, hv⟩
            · exact Or.inl hpa
            · refine Or.inr ⟨hk, ?_⟩
              rw [validMovies_cons_some m rest ht]
              exact List.mem_cons_of_mem m hv
        · have hln : acc.lookup (keyOf m) = none := Option.not_isSome_iff_eq_none.mp hl
          have hnotmem : keyOf m ∉ acc.map Prod.fst := (lookup_eq_none_iff _ acc).mp hln
          have hnd' : ((acc ++ [(keyOf m, m)]).map Prod.fst).Nodup := by
            rw [List.map_append]
            simp only [List.map_cons, List.map_nil]
            rw [List.nodup_append]
            refine ⟨hnd, List.nodup_singleton _, ?_⟩
            intro x hx hx1
            simp only [List.mem_singleton] at hx1
            subst hx1
            exact hnotmem hx
          obtain ⟨h1, h2, h3⟩ := ih (acc ++ [(keyOf m, m)]) hnd'
          rw [List.foldl_cons]
          have hstep : dedupStep keyOf acc (some m) = acc ++ [(keyOf m, m)] := by
            simp [dedupStep, ht, hl]
          rw [hstep]
          refine ⟨h1, ?_, ?_⟩
          · intro k
            rw [h2 k, lookup_append, validMovies_cons_some m rest ht]
            cases hak : acc.lookup k with
            | some v => rfl
            | none =>
              by_cases hkm : keyOf m = k
              · subst hkm
                have hb : (keyOf m == keyOf m) = true := beq_self_eq_true _
                simp [List.lookup, List.find?, hb]
              · have hb : (keyOf m == k) = false := beq_eq_false_iff_ne.mpr hkm
                have hb2 : (k == keyOf m) = false :=
                  beq_eq_false_iff_ne.mpr (Ne.symm hkm)
                simp [List.lookup, List.find?, hb, hb2]
          · intro p hp
            rcases h3 p hp with hpa | ⟨hk, hv⟩
            · rcases List.mem_append.mp hpa with hpacc | hpnew
              · exact Or.inl hpacc
              · simp only [List.mem_singleton] at hpnew
                subst hpnew
                refine Or.inr ⟨rfl, ?_⟩
                rw [validMovies_cons_some m rest ht]
                exact List.mem_cons_self m _
            · refine Or.inr ⟨hk, ?_⟩
              rw [validMovies_cons_some m rest ht]
              exact List.mem_cons_of_mem m hv

theorem mergeDedup_spec (keyOf : Movie → String) (raw : List (Option Movie)) :
    ((mergeDedup keyOf raw).map Prod.fst).Nodup ∧
    (∀ k, (mergeDedup keyOf raw).lookup k =
      (validMovies raw).find? (fun m => keyOf m == k)) ∧
    (∀ p ∈ mergeDedup keyOf raw, keyOf p.2 = p.1 ∧ p.2 ∈ validMovies raw) := by
  obtain ⟨h1, h2, h3⟩ := mergeDedup_invariant keyOf raw [] (by simp)
  refine ⟨h1, ?_, ?_⟩
  · intro k
    have := h2 k
    simpa [List.lookup] using this
  · intro p hp
    rcases h3 p hp with hpa | h
    · simp at hpa
    · exact h

/-- Core first-wins dedup property, shared by both key variants. -/
theorem mergeDedup_first_wins (keyOf : Movie → String) (raw : List (Option Movie)) :
    ((mergeDedup keyOf raw).map Prod.fst).Nodup ∧
    (∀ p ∈ mergeDedup keyOf raw,
      keyOf p.2 = p.1 ∧
      (validMovies raw).find? (fun m => keyOf m == p.1) = some p.2) ∧
    (∀ m ∈ validMovies raw, ∃ p ∈ mergeDedup keyOf raw, p.1 = keyOf m) := by
  obtain ⟨h1, h2, h3⟩ := mergeDedup_spec keyOf raw
  refine ⟨h1, ?_, ?_⟩
  · intro p hp
    obtain ⟨hk, -⟩ := h3 p hp
    refine ⟨hk, ?_⟩
    have hlk : (mergeDedup keyOf raw).lookup p.1 = some p.2 :=
      lookup_of_mem_nodup p.1 p.2 (mergeDedup keyOf raw) h1 hp
    rw [← h2 p.1]
    exact hlk
  · intro m hm
    have hfind : ((validMovies raw).find? (fun m' => keyOf m' == keyOf m)).isSome := by
      rw [List.find?_isSome]
      exact ⟨m, hm, beq_self_eq_true _⟩
    have hlk : ((mergeDedup keyOf raw).lookup (keyOf m)).isSome := by
      rw [h2 (keyOf m)]
      exact hfind
    have hmem : keyOf m ∈ (mergeDedup keyOf raw).map Prod.fst := by
      by_contra hcon
      rw [← lookup_eq_none_iff (keyOf m) (mergeDedup keyOf raw)] at hcon
      rw [hcon] at hlk
      simp at hlk
    obtain ⟨p, hp, hpk⟩ := List.mem_map.mp hmem
    exact ⟨p, hp, hpk⟩

/-- C3: under either dedup key (lowercased-trimmed title, or that key
combined with the year), the deduplicated map holds at most one record per
key, the record retained for each key is the first valid record with that key
in merge order (`find?` over the merged valid records), and every valid
record's key is represented (later duplicates are simply dropped). -/
theorem dedup_first_wins (raw : List (Option Movie)) :
    (((mergeDedup dedupKeyTitle raw).map Prod.fst).Nodup ∧
     (∀ p ∈ mergeDedup dedupKeyTitle raw,
       dedupKeyTitle p.2 = p.1 ∧
       (validMovies raw).find? (fun m => dedupKeyTitle m == p.1) = some p.2) ∧
     (∀ m ∈ validMovies raw, ∃ p ∈ mergeDedup dedupKeyTitle raw, p.1 = dedupKeyTitle m)) ∧
    (((mergeDedup dedupKeyTitleYear raw).map Prod.fst).Nodup ∧
     (∀ p ∈ mergeDedup dedupKeyTitleYear raw,
       dedupKeyTitleYear p.2 = p.1 ∧
       (validMovies raw).find? (fun m => dedupKeyTitleYear m == p.1) = some p.2) ∧
     (∀ m ∈ validMovies raw, ∃ p ∈ mergeDedup dedupKeyTitleYear raw,
       p.1 = dedupKeyTitleYear m)) :=
  ⟨mergeDedup_first_wins dedupKeyTitle raw, mergeDedup_first_wins dedupKeyTitleYear raw⟩

/-! ## Decimal string ids

`(index + 1).toString()` in the re-indexing step produces decimal strings.
Injectivity of `Nat`'s decimal printer is proved via a digit-reading
roundtrip, to establish that the assigned ids have no repeats. -/

/-- Decimal value of a digit character produced by `Nat.digitChar`. -/
def digitVal (c : Char) : Nat := c.toNat - 48

theorem digitVal_digitChar (d : Nat) (h : d < 10) :
    digitVal (Nat.digitChar d) = d := by
  interval_cases d <;> rfl

/-- Read a most-significant-first digit string, starting from accumulator
`a`. -/
def digitsValFrom (a : Nat) (l : List Char) : Nat :=
  l.foldl (fun x c => 10 * x + digitVal c) a

theorem digitsValFrom_append (a : Nat) (l₁ l₂ : List Char) :
    digitsValFrom a (l₁ ++ l₂) = digitsValFrom (digitsValFrom a l₁) l₂ := by
  simp [digitsValFrom, List.foldl_append]

theorem toDigitsCore_append (fuel : Nat) :
    ∀ (n : Nat) (acc : List Char),
      Nat.toDigitsCore 10 fuel n acc = Nat.toDigitsCore 10 fuel n [] ++ acc := by
  induction fuel with
  | zero => intro n acc; simp [Nat.toDigitsCore]
  | succ fuel ih =>
    intro n acc
    simp only [Nat.toDigitsCore]
    by_cases h : n / 10 = 0
    · simp [h]
    · simp only [if_neg h]
      rw [ih (n / 10) (Nat.digitChar (n % 10) :: acc),
        ih (n / 10) [Nat.digitChar (n % 10)]]
      simp

theorem toDigitsCore_fuel (fuel₁ : Nat) :
    ∀ (fuel₂ n : Nat) (acc : List Char), n < fuel₁ → n < fuel₂ →
      Nat.toDigitsCore 10 fuel₁ n acc = Nat.toDigitsCore 10 fuel₂ n acc := by
  induction fuel₁ with
  | zero => intro fuel₂ n acc h1 h2; omega
  | succ fuel₁ ih =>
    intro fuel₂ n acc h1 h2
    cases fuel₂ with
    | zero => omega
    | succ fuel₂ =>
      simp only [Nat.toDigitsCore]
      by_cases h : n / 10 = 0
      · simp [h]
      · simp only [if_neg h]
        have hdiv : n / 10 < n := Nat.div_lt_self (by omega) (by omega)
        exact ih fuel₂ (n / 10) _ (by omega) (by omega)

theorem digitsValFrom_toDigits (n : Nat) :
    digitsValFrom 0 (Nat.toDigits 10 n) = n := by
  induction n using Nat.strong_induction_on with
  | _ n ih =>
    unfold Nat.toDigits
    simp only [Nat.toDigitsCore]
    by_cases h : n / 10 = 0
    · simp only [if_pos h]
      have hd := digitVal_digitChar (n % 10) (by omega)
      simp [digitsValFrom, hd]
      omega
    · simp only [if_neg h]
      have hdiv : n / 10 < n := Nat.div_lt_self (by omega) (by omega)
      rw [toDigitsCore_fuel n (n / 10 + 1) (n / 10) [Nat.digitChar (n % 10)] hdiv
        (Nat.lt_succ_self _)]
      rw [toDigitsCore_append (n / 10 + 1) (n / 10) [Nat.digitChar (n % 10)]]
      rw [digitsValFrom_append]
      have ihd := ih (n / 10) hdiv
      unfold Nat.toDigits at ihd
      rw [ihd]
      have hd := digitVal_digitChar (n % 10) (by omega)
      simp [digitsValFrom, hd]
      omega

theorem nat_toString_injective (m n : Nat) (h : toString m = toString n) : m = n := by
  have hrepr : Nat.repr m = Nat.repr n := h
  unfold Nat.repr at hrepr
  have hlist : Nat.toDigits 10 m = Nat.toDigits 10 n := List.asString_inj.mp hrepr
  have hm := digitsValFrom_toDigits m
  have hn := digitsValFrom_toDigits n
  rw [hlist] at hm
  omega

theorem reindex_length (movies : List Movie) :
    (reindex movies).length = movies.length := by
  simp [reindex]

theorem reindex_ids_map (movies : List Movie) :
    (reindex movies).map Movie.id =
      (List.range movies.length).map (fun i => toString (i + 1)) := by
  unfold reindex
  rw [List.mapIdx_eq_ofFn, List.map_ofFn]
  rw [← List.map_coe_finRange movies.length, List.map_map]
  rw [List.ofFn_eq_map]
  rfl

theorem reindex_ids_nodup (movies : List Movie) :
    ((reindex movies).map Movie.id).Nodup := by
  rw [reindex_ids_map]
  refine List.Nodup.map ?_ (List.nodup_range _)
  intro a b hab
  have h := nat_toString_injective (a + 1) (b + 1) hab
  omega

theorem reindex_get? (movies : List Movie) (i : Nat) (h : i < movies.length) :
    (reindex movies)[i]? = some { movies.get ⟨i, h⟩ with id := toString (i + 1) } := by
  have hlen : i < (reindex movies).length := by rw [reindex_length]; exact h
  rw [List.getElem?_eq_getElem hlen]
  congr 1
  have hg := List.get_mapIdx movies
    (fun index movie => { movie with id := toString (index + 1) }) i h
  exact hg

/-- C4: re-indexing a deduplicated list of `N` records assigns ids that are
exactly the strings "1" through "N" in order — no gaps, no repeats — in the
iteration (insertion) order of the dedup map, preserving every other field;
in the full pipeline the ids of the finalized dataset are "1".."N" for `N`
the size of the dedup map, assigned only after deduplication. -/
theorem reindex_ids (movies : List Movie) :
    (reindex movies).length = movies.length ∧
    (reindex movies).map Movie.id =
      (List.range movies.length).map (fun i => toString (i + 1)) ∧
    ((reindex movies).map Movie.id).Nodup ∧
    (∀ i (h : i < movies.length),
      (reindex movies)[i]? = some { movies.get ⟨i, h⟩ with id := toString (i + 1) }) ∧
    (∀ (keyOf : Movie → String) (raw : List (Option Movie)),
      (finalizeDataset keyOf raw).map Movie.id =
        (List.range (mergeDedup keyOf raw).length).map (fun i => toString (i + 1))) := by
  refine ⟨reindex_length movies, reindex_ids_map movies, reindex_ids_nodup movies,
    reindex_get? movies, ?_⟩
  intro keyOf raw
  unfold finalizeDataset
  rw [reindex_ids_map, List.length_map]

theorem foldl_dedupStep_valid (keyOf : Movie → String) :
    ∀ (raw : List (Option Movie)) (acc : List (String × Movie)),
      raw.foldl (dedupStep keyOf) acc =
        ((validMovies raw).map some).foldl (dedupStep keyOf) acc := by
  intro raw
  induction raw with
  | nil => intro acc; rfl
  | cons om rest ih =>
    intro acc
    cases om with
    | none =>
      rw [validMovies_cons_none, List.foldl_cons]
      have hstep : dedupStep keyOf acc none = acc := rfl
      rw [hstep]
      exact ih acc
    | some m =>
      by_cases ht : m.title = ""
      · rw [validMovies_cons_some_empty m rest ht, List.foldl_cons]
        have hstep : dedupStep keyOf acc (some m) = acc := by simp [dedupStep, ht]
        rw [hstep]
        exact ih acc
      · rw [validMovies_cons_some m rest ht, List.map_cons, List.foldl_cons, List.foldl_cons]
        exact ih (dedupStep keyOf acc (some m))

theorem reindex_title (l : List Movie) :
    ∀ m ∈ reindex l, ∃ m' ∈ l, m.title = m'.title := by
  intro m hm
  rw [List.mem_iff_get] at hm
  obtain ⟨⟨i, hi⟩, hget⟩ := hm
  have hi' : i < l.length := by
    have hh := hi
    rw [reindex_length] at hh
    exact hh
  have hg := List.get_mapIdx l
    (fun index movie => ({ movie with id := toString (index + 1) } : Movie)) i hi'
  refine ⟨l.get ⟨i, hi'⟩, List.get_mem l i hi', ?_⟩
  rw [← hget]
  calc ((reindex l).get ⟨i, hi⟩).title
      = ({ l.get ⟨i, hi'⟩ with id := toString (i + 1) } : Movie).title :=
        congrArg Movie.title hg
    _ = (l.get ⟨i, hi'⟩).title := rfl

/-- C10: the merge phase silently discards `null` entries and records with a
missing/empty title before deduplication — the dedup map equals the one
computed from only the valid records — so no such entry reaches the final
dataset and every finalized record has a non-empty title. -/
theorem merge_discards_invalid (keyOf : Movie → String) (raw : List (Option Movie)) :
    mergeDedup keyOf raw = mergeDedup keyOf ((validMovies raw).map some) ∧
    (∀ p ∈ mergeDedup keyOf raw, p.2.title ≠ "") ∧
    (∀ m ∈ finalizeDataset keyOf raw, m.title ≠ "") := by
  refine ⟨foldl_dedupStep_valid keyOf raw [], ?_, ?_⟩
  · intro p hp
    obtain ⟨-, hv⟩ := (mergeDedup_spec keyOf raw).2.2 p hp
    exact validMovies_title raw p.2 hv
  · intro m hm
    unfold finalizeDataset at hm
    obtain ⟨m', hm', ht⟩ := reindex_title _ m hm
    obtain ⟨p, hp, rfl⟩ := List.mem_map.mp hm'
    rw [ht]
    obtain ⟨-, hv⟩ := (mergeDedup_spec keyOf raw).2.2 p hp
    exact validMovies_title raw p.2 hv

/-! ## Fan-out Orchestrators and Fallback Datasets -/

/-- The inline 5-record fallback of `src/services/geminiService.ts`
(lines 136–142). -/
def SERVICES_FALLBACK : List Movie := [
  { id := "1", title := "Oppenheimer", language := "English", genre := "Drama",
    year := 2023, imdbRating := 8.4, rottenTomatoesRating := 93, budget := 100, revenue := 957 },
  { id := "2", title := "RRR", language := "Telugu", genre := "Action",
    year := 2022, imdbRating := 7.8, rottenTomatoesRating := 95, budget := 69, revenue := 160 },
  { id := "3", title := "Kantara", language := "Kannada", genre := "Thriller",
    year := 2022, imdbRating := 8.2, rottenTomatoesRating := 90, budget := 2, revenue := 50 },
  { id := "4", title := "Vikram", language := "Tamil", genre := "Action",
    year := 2022, imdbRating := 8.3, rottenTomatoesRating := 95, budget := 15, revenue := 60 },
  { id := "5", title := "Manjummel Boys", language := "Malayalam", genre := "Adventure",
    year := 2024, imdbRating := 8.4, rottenTomatoesRating := 95, budget := 2.5, revenue := 29 }]

/-- `generateMovieDataset` of `src/services/geminiService.ts` (lines 90–144)
after the parallel fetch phase has settled: `results` holds the per-batch
lists (`[]` for failed batches, per `fetchMoviesForPeriod`).  The only
`throw` inside the `try` is the `finalMovies.length === 0` check, so in this
total embedding the `catch` (fallback substitution) fires exactly when the
finalized list is empty. -/
def generateMovieDataset (results : List (List (Option Movie))) : List Movie :=
  if (finalizeDataset dedupKeyTitle results.flatten).length = 0 then SERVICES_FALLBACK
  else finalizeDataset dedupKeyTitle results.flatten

/-- C1: the services orchestrator never rejects: it always resolves to a
non-empty list — either the finalized dataset or exactly the fallback
constant — and when the merged batches yield zero records the result is
exactly the fallback constant. -/
theorem generate_never_rejects (results : List (List (Option Movie))) :
    0 < (generateMovieDataset results).length ∧
    (generateMovieDataset results = SERVICES_FALLBACK ∨
      generateMovieDataset results = finalizeDataset dedupKeyTitle results.flatten) ∧
    (results.flatten = [] → generateMovieDataset results = SERVICES_FALLBACK) := by
  unfold generateMovieDataset
  by_cases h : (finalizeDataset dedupKeyTitle results.flatten).length = 0
  · rw [if_pos h]
    exact ⟨by decide, Or.inl rfl, fun _ => rfl⟩
  · rw [if_neg h]
    refine ⟨by omega, Or.inr rfl, ?_⟩
    intro hfl
    exfalso
    apply h
    rw [hfl]
    rfl

/-- The 50-record fallback constant `FALLBACK_DATA` of
`src/components/charts/geminiService.ts` (lines 310–370); the enum values
`LanguageType.*` / `GenreType.*` elaborate to the strings below. -/
def FALLBACK_DATA : List Movie := [
  { id := "1", title := "Oppenheimer", language := "English", genre := "Drama",
    year := 2023, imdbRating := 8.4, rottenTomatoesRating := 93, budget := 100, revenue := 957 },
  { id := "2", title := "RRR", language := "Telugu", genre := "Action",
    year := 2022, imdbRating := 7.8, rottenTomatoesRating := 95, budget := 69, revenue := 160 },
  { id := "3", title := "Kantara", language := "Kannada", genre := "Thriller",
    year := 2022, imdbRating := 8.2, rottenTomatoesRating := 90, budget := 2, revenue := 50 },
  { id := "4", title := "Vikram", language := "Tamil", genre := "Action",
    year := 2022, imdbRating := 8.3, rottenTomatoesRating := 95, budget := 15, revenue := 60 },
  { id := "5", title := "Manjummel Boys", language := "Malayalam", genre := "Adventure",
    year := 2024, imdbRating := 8.4, rottenTomatoesRating := 95, budget := 2.5, revenue := 29 },
  { id := "6", title := "Leo", language := "Tamil", genre := "Action",
    year := 2023, imdbRating := 7.2, rottenTomatoesRating := 80, budget := 35, revenue := 75 },
  { id := "7", title := "Jawan", language := "Hindi", genre := "Action",
    year := 2023, imdbRating := 7.0, rottenTomatoesRating := 85, budget := 36, revenue := 140 },
  { id := "8", title := "K.G.F: Chapter 2", language := "Kannada", genre := "Action",
    year := 2022, imdbRating := 8.3, rottenTomatoesRating := 88, budget := 12, revenue := 150 },
  { id := "9", title := "Ponniyin Selvan: I", language := "Tamil", genre := "Drama",
    year := 2022, imdbRating := 7.6, rottenTomatoesRating := 88, budget := 60, revenue := 60 },
  { id := "10", title := "Pushpa: The Rise", language := "Telugu", genre := "Action",
    year := 2021, imdbRating := 7.6, rottenTomatoesRating := 85, budget := 25, revenue := 45 },
  { id := "11", title := "Baahubali 2: The Conclusion", language := "Telugu", genre := "Action",
    year := 2017, imdbRating := 8.2, rottenTomatoesRating := 89, budget := 37, revenue := 278 },
  { id := "12", title := "Avengers: Endgame", language := "English", genre := "Action",
    year := 2019, imdbRating := 8.4, rottenTomatoesRating := 94, budget := 356, revenue := 2797 },
  { id := "13", title := "Dangal", language := "Hindi", genre := "Drama",
    year := 2016, imdbRating := 8.3, rottenTomatoesRating := 88, budget := 9.5, revenue := 305 },
  { id := "14", title := "Inception", language := "English", genre := "Sci-Fi",
    year := 2010, imdbRating := 8.8, rottenTomatoesRating := 87, budget := 160, revenue := 829 },
  { id := "15", title := "Drishyam", language := "Malayalam", genre := "Thriller",
    year := 2013, imdbRating := 8.3, rottenTomatoesRating := 90, budget := 0.8, revenue := 10 },
  { id := "16", title := "Interstellar", language := "English", genre := "Sci-Fi",
    year := 2014, imdbRating := 8.7, rottenTomatoesRating := 73, budget := 165, revenue := 701 },
  { id := "17", title := "Gangs of Wasseypur", language := "Hindi", genre := "Action",
    year := 2012, imdbRating := 8.2, rottenTomatoesRating := 95, budget := 2.3, revenue := 6 },
  { id := "18", title := "Mahanati", language := "Telugu", genre := "Drama",
    year := 2018, imdbRating := 8.5, rottenTomatoesRating := 90, budget := 4, revenue := 12 },
  { id := "19", title := "Bangalore Days", language := "Malayalam", genre := "Romance",
    year := 2014, imdbRating := 8.3, rottenTomatoesRating := 100, budget := 1, revenue := 8 },
  { id := "20", title := "Super Deluxe", language := "Tamil", genre := "Drama",
    year := 2019, imdbRating := 8.3, rottenTomatoesRating := 94, budget := 2, revenue := 7 },
  { id := "21", title := "3 Idiots", language := "Hindi", genre := "Comedy",
    year := 2009, imdbRating := 8.4, rottenTomatoesRating := 100, budget := 8, revenue := 65 },
  { id := "22", title := "The Dark Knight", language := "English", genre := "Action",
    year := 2008, imdbRating := 9.0, rottenTomatoesRating := 94, budget := 185, revenue := 1005 },
  { id := "23", title := "Lagaan", language := "Hindi", genre := "Drama",
    year := 2001, imdbRating := 8.1, rottenTomatoesRating := 95, budget := 5, revenue := 10 },
  { id := "24", title := "Pokiri", language := "Telugu", genre := "Action",
    year := 2006, imdbRating := 8.0, rottenTomatoesRating := 80, budget := 2, revenue := 15 },
  { id := "25", title := "Anniyan", language := "Tamil", genre := "Thriller",
    year := 2005, imdbRating := 8.3, rottenTomatoesRating := 85, budget := 4, revenue := 8 },
  { id := "26", title := "Avatar", language := "English", genre := "Sci-Fi",
    year := 2009, imdbRating := 7.9, rottenTomatoesRating := 82, budget := 237, revenue := 2923 },
  { id := "27", title := "Gladiator", language := "English", genre := "Action",
    year := 2000, imdbRating := 8.5, rottenTomatoesRating := 77, budget := 103, revenue := 460 },
  { id := "28", title := "Ghajini", language := "Hindi", genre := "Action",
    year := 2008, imdbRating := 7.3, rottenTomatoesRating := 50, budget := 8, revenue := 30 },
  { id := "29", title := "Sivaji: The Boss", language := "Tamil", genre := "Action",
    year := 2007, imdbRating := 7.5, rottenTomatoesRating := 80, budget := 8, revenue := 19 },
  { id := "30", title := "Arundhati", language := "Telugu", genre := "Horror",
    year := 2009, imdbRating := 7.3, rottenTomatoesRating := 80, budget := 2, revenue := 10 },
  { id := "31", title := "Dilwale Dulhania Le Jayenge", language := "Hindi", genre := "Romance",
    year := 1995, imdbRating := 8.0, rottenTomatoesRating := 100, budget := 4, revenue := 50 },
  { id := "32", title := "Titanic", language := "English", genre := "Romance",
    year := 1997, imdbRating := 7.9, rottenTomatoesRating := 89, budget := 200, revenue := 2201 },
  { id := "33", title := "Manichitrathazhu", language := "Malayalam", genre := "Horror",
    year := 1993, imdbRating := 8.8, rottenTomatoesRating := 95, budget := 0.4, revenue := 4 },
  { id := "34", title := "Jurassic Park", language := "English", genre := "Adventure",
    year := 1993, imdbRating := 8.2, rottenTomatoesRating := 91, budget := 63, revenue := 1046 },
  { id := "35", title := "Baasha", language := "Tamil", genre := "Action",
    year := 1995, imdbRating := 8.7, rottenTomatoesRating := 90, budget := 1, revenue := 5 },
  { id := "36", title := "The Lion King", language := "English", genre := "Adventure",
    year := 1994, imdbRating := 8.5, rottenTomatoesRating := 93, budget := 45, revenue := 968 },
  { id := "37", title := "Forrest Gump", language := "English", genre := "Drama",
    year := 1994, imdbRating := 8.8, rottenTomatoesRating := 71, budget := 55, revenue := 677 },
  { id := "38", title := "Roja", language := "Tamil", genre := "Romance",
    year := 1992, imdbRating := 8.1, rottenTomatoesRating := 90, budget := 0.5, revenue := 2 },
  { id := "39", title := "Hum Aapke Hain Koun..!", language := "Hindi", genre := "Romance",
    year := 1994, imdbRating := 7.5, rottenTomatoesRating := 80, budget := 1.5, revenue := 25 },
  { id := "40", title := "Pulp Fiction", language := "English", genre := "Thriller",
    year := 1994, imdbRating := 8.9, rottenTomatoesRating := 92, budget := 8, revenue := 213 },
  { id := "41", title := "Nayakan", language := "Tamil", genre := "Drama",
    year := 1987, imdbRating := 8.7, rottenTomatoesRating := 92, budget := 1, revenue := 10 },
  { id := "42", title := "Shiva", language := "Telugu", genre := "Action",
    year := 1989, imdbRating := 8.0, rottenTomatoesRating := 90, budget := 0.5, revenue := 5 },
  { id := "43", title := "Back to the Future", language := "English", genre := "Sci-Fi",
    year := 1985, imdbRating := 8.5, rottenTomatoesRating := 93, budget := 19, revenue := 388 },
  { id := "44", title := "Mr. India", language := "Hindi", genre := "Sci-Fi",
    year := 1987, imdbRating := 7.8, rottenTomatoesRating := 90, budget := 1.2, revenue := 5 },
  { id := "45", title := "Moondram Pirai", language := "Tamil", genre := "Drama",
    year := 1982, imdbRating := 8.4, rottenTomatoesRating := 95, budget := 0.5, revenue := 2 },
  { id := "46", title := "Sagara Sangamam", language := "Telugu", genre := "Drama",
    year := 1983, imdbRating := 8.8, rottenTomatoesRating := 90, budget := 0.8, revenue := 3 },
  { id := "47", title := "Thoovanathumbikal", language := "Malayalam", genre := "Romance",
    year := 1987, imdbRating := 8.7, rottenTomatoesRating := 90, budget := 0.3, revenue := 1 },
  { id := "48", title := "E.T. the Extra-Terrestrial", language := "English", genre := "Sci-Fi",
    year := 1982, imdbRating := 7.9, rottenTomatoesRating := 99, budget := 10.5, revenue := 792 },
  { id := "49", title := "Blade Runner", language := "English", genre := "Sci-Fi",
    year := 1982, imdbRating := 8.1, rottenTomatoesRating := 89, budget := 30, revenue := 41 },
  { id := "50", title := "Pushpaka Vimana", language := "Kannada", genre := "Comedy",
    year := 1987, imdbRating := 8.6, rottenTomatoesRating := 95, budget := 0.4, revenue := 1.5 }]

/-- The fixed era buckets of the bounded-wave charts variant
(lines 382–387). -/
def chartsPeriods : List (Nat × Nat) :=
  [(1980, 1983), (1984, 1987), (1988, 1991),
   (1992, 1995), (1996, 1999), (2000, 2003),
   (2004, 2007), (2008, 2011), (2012, 2015),
   (2016, 2019), (2020, 2022), (2023, 2025)]

/-- Outcome of one charts-variant generation run: the resolved dataset, the
progress messages delivered to the sink (empty when no sink is supplied) and
the number of generation requests issued. -/
structure RunOutcome where
  dataset : List Movie
  progress : List String
  requestsIssued : Nat

/-- The wave loop of lines 398–409: `for (let i = 0; i < periods.length;
i += BATCH_SIZE)`, fetching `periods.slice(i, i + BATCH_SIZE)` per wave and
emitting one progress message per wave when a sink is present.  `fetchOf`
abstracts the settled result of one period's `fetchMoviesForPeriod`; fuel
bounds the iterations (`periods.length` always suffices for a positive
batch size). -/
def waveLoopGo (fetchOf : Nat × Nat → List (Option Movie)) (periods : List (Nat × Nat))
    (batchSize : Nat) (hasSink : Bool) :
    Nat → Nat → List String × List (List (Option Movie))
  | 0, _ => ([], [])
  | fuel + 1, i =>
    if i < periods.length then
      ((if hasSink then
          ["Fetching movies... (" ++ toString (min (i + batchSize) periods.length) ++
            " / " ++ toString periods.length ++ " sectors)"]
        else []) ++ (waveLoopGo fetchOf periods batchSize hasSink fuel (i + batchSize)).1,
       ((periods.drop i).take batchSize).map fetchOf ++
         (waveLoopGo fetchOf periods batchSize hasSink fuel (i + batchSize)).2)
    else ([], [])

/-- `generateMovieDataset` of the bounded-wave charts variant (lines
372–445): `apiKeyPresent` models the truthiness of `process.env.API_KEY`,
`hasSink` the presence of the optional `onProgress` callback, `fetchOf` the
settled per-period batch results.  With no credential the fallback is
returned immediately with zero requests issued and a configuration-specific
message; otherwise all periods are fetched in waves of `BATCH_SIZE = 4`, and
the merged result is deduplicated on the title-and-year key and re-indexed,
with the fallback substituted when the merge produced zero raw records (the
only `throw` inside the `try`). -/
def chartsGenerateMovieDataset (apiKeyPresent hasSink : Bool)
    (fetchOf : Nat × Nat → List (Option Movie)) : RunOutcome :=
  if apiKeyPresent = false then
    { dataset := FALLBACK_DATA
      progress := if hasSink then ["API Key missing. Loading offline data..."] else []
      requestsIssued := 0 }
  else
    if ((waveLoopGo fetchOf chartsPeriods 4 hasSink chartsPeriods.length 0).2.flatten).length
        = 0 then
      { dataset := FALLBACK_DATA
        progress := (if hasSink then ["Initializing massive data stream..."] else []) ++
          (waveLoopGo fetchOf chartsPeriods 4 hasSink chartsPeriods.length 0).1 ++
          (if hasSink then ["Finalizing dataset...",
            "Connection failed. Loading backup dataset..."] else [])
        requestsIssued := chartsPeriods.length }
    else
      { dataset := reindex ((mergeDedup dedupKeyTitleYear
          (waveLoopGo fetchOf chartsPeriods 4 hasSink chartsPeriods.length 0).2.flatten).map
            Prod.snd)
        progress := (if hasSink then ["Initializing massive data stream..."] else []) ++
          (waveLoopGo fetchOf chartsPeriods 4 hasSink chartsPeriods.length 0).1 ++
          (if hasSink then ["Finalizing dataset..."] else [])
        requestsIssued := chartsPeriods.length }

/-- C8: with no service credential the orchestrator returns the fallback
dataset without issuing any generation request and, when a progress sink is
supplied, reports the configuration-specific message; with a credential
present it always attempts generation (one request per period, and there is
at least one period) — credential presence is the sole switch. -/
theorem no_credential_fallback (hasSink : Bool) (fetchOf : Nat × Nat → List (Option Movie)) :
    (chartsGenerateMovieDataset false hasSink fetchOf).dataset = FALLBACK_DATA ∧
    (chartsGenerateMovieDataset false hasSink fetchOf).requestsIssued = 0 ∧
    (chartsGenerateMovieDataset false hasSink fetchOf).progress =
      (if hasSink then ["API Key missing. Loading offline data..."] else []) ∧
    (chartsGenerateMovieDataset true hasSink fetchOf).requestsIssued = chartsPeriods.length ∧
    0 < chartsPeriods.length := by
  refine ⟨rfl, rfl, rfl, ?_, by decide⟩
  unfold chartsGenerateMovieDataset
  rw [if_neg (by simp)]
  by_cases h : ((waveLoopGo fetchOf chartsPeriods 4 hasSink chartsPeriods.length 0).2.flatten).length = 0
  · rw [if_pos h]
  · rw [if_neg h]

/-- The language enumeration of the Record Schema (`src/types.ts`). -/
def languageEnum : List String :=
  ["English", "Hindi", "Tamil", "Telugu", "Malayalam", "Kannada"]

/-- The genre enumeration of the Record Schema (`src/types.ts`; the
pseudo-value "All" exists only in filter state, never on a record). -/
def genreEnum : List String :=
  ["Action", "Drama", "Comedy", "Sci-Fi", "Horror", "Romance", "Thriller", "Adventure"]

/-- C9: the fallback constant satisfies the Record Schema invariants — ids
are exactly the contiguous sequence "1".."N", every language and genre value
is in its enumeration, `imdbRating ∈ [0,10]`, `rottenTomatoesRating ∈
[0,100]`, budget and revenue are non-negative — and its records span the
supported year range 1980–2025: every year is in range, every enumerated
language and genre occurs, and every decade of the range is represented. -/
theorem fallback_schema :
    FALLBACK_DATA.map Movie.id =
      (List.range FALLBACK_DATA.length).map (fun i => toString (i + 1)) ∧
    (∀ m ∈ FALLBACK_DATA, m.language ∈ languageEnum ∧ m.genre ∈ genreEnum ∧
      0 ≤ m.imdbRating ∧ m.imdbRating ≤ 10 ∧
      0 ≤ m.rottenTomatoesRating ∧ m.rottenTomatoesRating ≤ 100 ∧
      0 ≤ m.budget ∧ 0 ≤ m.revenue ∧
      1980 ≤ m.year ∧ m.year ≤ 2025) ∧
    (∀ lang ∈ languageEnum, ∃ m ∈ FALLBACK_DATA, m.language = lang) ∧
    (∀ g ∈ genreEnum, ∃ m ∈ FALLBACK_DATA, m.genre = g) ∧
    (∀ d ∈ ([1980, 1990, 2000, 2010, 2020] : List Int),
      ∃ m ∈ FALLBACK_DATA, d ≤ m.year ∧ m.year < d + 10) := by
  refine ⟨by decide, ?_, by decide, by decide, by decide⟩
  intro m hm
  fin_cases hm <;> norm_num [languageEnum, genreEnum]
